import Mathlib

set_option maxHeartbeats 1000000
set_option maxRecDepth 10000

/-!
Verification of the fhevm SDK core against its specification.

The development shallowly embeds the TypeScript sources:
JS `Uint8Array` values become `List Byte` (`Byte := Fin 256`),
JS strings become Lean `String`/`List Char`, JS numbers become `ℚ`
(finite doubles; `NaN`/infinities appear as `Option.none` where a
conversion can produce them), exceptions become `Except`/`Option`,
and the external FHE instance, provider and signer are oracle records
whose results are arguments of the embedded operations.
-/

/-- JS `Uint8Array` element: one byte. -/
abbrev Byte := Fin 256

/-- Lowercase hex digit character for a value below 16
(the digit set of JS `Number.prototype.toString(16)`). -/
def hexDigitChar (n : Nat) : Char :=
  if n < 10 then Char.ofNat ('0'.toNat + n) else Char.ofNat ('a'.toNat + (n - 10))

/-- `b.toString(16).padStart(2, '0')` for a byte `b`: exactly two lowercase
hex characters. -/
def byteToHexChars (b : Byte) : List Char :=
  [hexDigitChar (b.val / 16), hexDigitChar (b.val % 16)]

/-- Characters treated as whitespace by JS string trimming
(`StrWhiteSpace`): the set relevant to `parseInt`. -/
def isJsWhitespaceChar (c : Char) : Bool :=
  c == ' ' || c == '\t' || c == '\n' || c == '\r' ||
  c == Char.ofNat 11 || c == Char.ofNat 12 || c == Char.ofNat 0xA0 ||
  c == Char.ofNat 0xFEFF || c == Char.ofNat 0x2028 || c == Char.ofNat 0x2029

/-- Hex digit recognizer, case-insensitive (JS radix-16 digit set). -/
def isHexDigitChar (c : Char) : Bool :=
  ('0' ≤ c && c ≤ '9') || ('a' ≤ c && c ≤ 'f') || ('A' ≤ c && c ≤ 'F')

/-- Numeric value of one hex digit character. -/
def hexCharVal (c : Char) : Nat :=
  if '0' ≤ c && c ≤ '9' then c.toNat - '0'.toNat
  else if 'a' ≤ c && c ≤ 'f' then c.toNat - 'a'.toNat + 10
  else c.toNat - 'A'.toNat + 10

/-- Value of a hex digit string, most significant first. -/
def hexDigitsVal (ds : List Char) : Nat :=
  ds.foldl (fun a c => a * 16 + hexCharVal c) 0

/-- JS `parseInt(s, 16)`: skip leading whitespace, optional sign, optional
`0x`/`0X`, then the longest run of hex digits; `none` models `NaN`
(no digits found). Trailing garbage is ignored, exactly as in JS. -/
def jsParseIntHex (cs : List Char) : Option Int :=
  let cs1 := cs.dropWhile isJsWhitespaceChar
  let signed : Int × List Char :=
    match cs1 with
    | '-' :: r => (-1, r)
    | '+' :: r => (1, r)
    | _ => (1, cs1)
  let cs3 :=
    match signed.2 with
    | '0' :: 'x' :: r => r
    | '0' :: 'X' :: r => r
    | r => r
  let ds := cs3.takeWhile isHexDigitChar
  if ds.isEmpty then none else some (signed.1 * (hexDigitsVal ds : Int))

/-- Reduce an integer to a byte as a JS `Uint8Array` element store does
(`ToUint8`: Euclidean remainder modulo 256). -/
def byteOfInt (n : Int) : Byte :=
  ⟨(n.emod 256).toNat, by
    have h1 : 0 ≤ n.emod 256 := Int.emod_nonneg n (by decide)
    have h2 : n.emod 256 < 256 := Int.emod_lt_of_pos n (by decide)
    omega⟩

/-- Storing a `parseInt` result into a `Uint8Array` slot: `NaN` stores 0,
a number is wrapped modulo 256. -/
def storeByte (pv : Option Int) : Byte :=
  match pv with
  | none => 0
  | some n => byteOfInt n

/-- The conversion loop shared by `hexToBytes` and `hexToUint8Array`:
`bytes[i / 2] = parseInt(s.substr(i, 2), 16)` over consecutive pairs of an
even-length character list. -/
def parseHexPairs : List Char → List Byte
  | c1 :: c2 :: rest => storeByte (jsParseIntHex [c1, c2]) :: parseHexPairs rest
  | _ => []

/-- JS `hex.replace('0x', '')`: remove the first occurrence of `0x`
anywhere in the string (only the first, as `String.prototype.replace`
with a string pattern does). -/
def removeFirst0x : List Char → List Char
  | [] => []
  | '0' :: 'x' :: r => r
  | c :: r => c :: removeFirst0x r

/-- JS `hex.startsWith('0x') ? hex.slice(2) : hex`. -/
def strip0xIfStartsWith (cs : List Char) : List Char :=
  match cs with
  | '0' :: 'x' :: r => r
  | r => r

/-- `bytesToHex` from the security utilities:
`'0x' + Array.from(bytes).map(b => b.toString(16).padStart(2, '0')).join('')`. -/
def bytesToHex (bytes : List Byte) : String :=
  String.mk ('0' :: 'x' :: (bytes.map byteToHexChars).flatten)

/-- `encryptedToHex` from the encryption utilities: same construction as
`bytesToHex`. -/
def encryptedToHex (encrypted : List Byte) : String :=
  String.mk ('0' :: 'x' :: (encrypted.map byteToHexChars).flatten)

/-- `hexToBytes` from the security utilities. `new Uint8Array(cleaned.length / 2)`
throws a `RangeError` when the length is odd (fractional array length); that
exception is the `none` case. Otherwise every pair is parsed with
`parseInt(·, 16)` and stored (never failing: unparseable pairs store 0). -/
def hexToBytes (hex : String) : Option (List Byte) :=
  let cleaned := removeFirst0x hex.data
  if cleaned.length % 2 = 0 then some (parseHexPairs cleaned) else none

/-- `hexToUint8Array` from the encryption utilities: identical loop, but the
prefix is removed only when the string actually starts with `0x`. -/
def hexToUint8Array (hex : String) : Option (List Byte) :=
  let cleaned := strip0xIfStartsWith hex.data
  if cleaned.length % 2 = 0 then some (parseHexPairs cleaned) else none

/-- Decimal digit recognizer. -/
def isDecDigitChar (c : Char) : Bool := '0' ≤ c && c ≤ '9'

/-- Value of a decimal digit string, most significant first. -/
def decDigitsVal (ds : List Char) : Nat :=
  ds.foldl (fun a c => a * 10 + (c.toNat - '0'.toNat)) 0

/-- Parse an optional exponent part `e±ddd` of a JS string numeric literal
and apply it to `base`; the whole remaining input must be consumed. -/
def applyExponent (base : ℚ) (cs : List Char) : Option ℚ :=
  match cs with
  | [] => some base
  | 'e' :: r | 'E' :: r =>
      let signed : Int × List Char :=
        match r with
        | '-' :: r2 => (-1, r2)
        | '+' :: r2 => (1, r2)
        | r2 => (1, r2)
      let ds := signed.2.takeWhile isDecDigitChar
      if ds.isEmpty || !(signed.2.dropWhile isDecDigitChar).isEmpty then none
      else some (base * (10 : ℚ) ^ (signed.1 * (decDigitsVal ds : Int)))
  | _ => none

/-- Parse `DecimalDigits ['.' DecimalDigits] [Exponent]` or
`'.' DecimalDigits [Exponent]` (the unsigned decimal production of the JS
string-to-number grammar), requiring full consumption. -/
def parseUnsignedDecimal (cs : List Char) : Option ℚ :=
  let intPart := cs.takeWhile isDecDigitChar
  let rest := cs.dropWhile isDecDigitChar
  match rest with
  | '.' :: r2 =>
      let fracPart := r2.takeWhile isDecDigitChar
      let r3 := r2.dropWhile isDecDigitChar
      if intPart.isEmpty && fracPart.isEmpty then none
      else
        applyExponent ((decDigitsVal intPart : ℚ) +
          (decDigitsVal fracPart : ℚ) / (10 : ℚ) ^ fracPart.length) r3
  | _ =>
      if intPart.isEmpty then none else applyExponent (decDigitsVal intPart : ℚ) rest

/-- JS `Number(s)` on a string. `none` stands for `NaN` and for the two
infinities: every use in this codebase treats those identically (they fail
`Number.isInteger` and all range comparisons). Grammar: surrounding
whitespace, then empty (= 0), a signless `0x`/`0o`/`0b` literal, or a
signed decimal / `Infinity`. -/
def jsStringToNumber (cs : List Char) : Option ℚ :=
  let t := ((cs.dropWhile isJsWhitespaceChar).reverse.dropWhile isJsWhitespaceChar).reverse
  match t with
  | [] => some 0
  | '0' :: 'x' :: r | '0' :: 'X' :: r =>
      if !r.isEmpty && r.all isHexDigitChar then some (hexDigitsVal r : ℚ) else none
  | '0' :: 'o' :: r | '0' :: 'O' :: r =>
      if !r.isEmpty && r.all (fun c => '0' ≤ c && c ≤ '7')
      then some ((r.foldl (fun a c => a * 8 + (c.toNat - '0'.toNat)) 0 : Nat) : ℚ) else none
  | '0' :: 'b' :: r | '0' :: 'B' :: r =>
      if !r.isEmpty && r.all (fun c => c == '0' || c == '1')
      then some ((r.foldl (fun a c => a * 2 + (c.toNat - '0'.toNat)) 0 : Nat) : ℚ) else none
  | _ =>
      let signed : Bool × List Char :=
        match t with
        | '-' :: r => (true, r)
        | '+' :: r => (false, r)
        | r => (false, r)
      if signed.2 == "Infinity".data then none
      else
        match parseUnsignedDecimal signed.2 with
        | none => none
        | some q => some (if signed.1 then -q else q)

/-- A runtime value of the TS union `number | boolean | string | bigint`
(the parameter type of `validateEncryptionValue` and of the typed encrypt
entry points, which JS does not coerce). Numbers are finite doubles,
embedded as rationals. -/
inductive JSVal where
  | num (q : ℚ)
  | bool (b : Bool)
  | str (s : String)
  | big (n : Int)
deriving DecidableEq

/-- JS `Number(value)` on the union: identity on numbers, 0/1 on booleans,
exact on bigints (every bigint this code feeds to `Number` is far below
2^53, where doubles are exact), string grammar above. -/
def jsToNumber : JSVal → Option ℚ
  | .num q => some q
  | .bool b => some (if b then 1 else 0)
  | .big n => some (n : ℚ)
  | .str s => jsStringToNumber s.data

/-- JS `StringToBigInt`: the string-to-number grammar with no fractional
part, exponent or `Infinity`; `none` models the thrown `SyntaxError`. -/
def jsStringToBigInt (cs : List Char) : Option Int :=
  let t := ((cs.dropWhile isJsWhitespaceChar).reverse.dropWhile isJsWhitespaceChar).reverse
  match t with
  | [] => some 0
  | '0' :: 'x' :: r | '0' :: 'X' :: r =>
      if !r.isEmpty && r.all isHexDigitChar then some (hexDigitsVal r : Int) else none
  | '0' :: 'o' :: r | '0' :: 'O' :: r =>
      if !r.isEmpty && r.all (fun c => '0' ≤ c && c ≤ '7')
      then some ((r.foldl (fun a c => a * 8 + (c.toNat - '0'.toNat)) 0 : Nat) : Int) else none
  | '0' :: 'b' :: r | '0' :: 'B' :: r =>
      if !r.isEmpty && r.all (fun c => c == '0' || c == '1')
      then some ((r.foldl (fun a c => a * 2 + (c.toNat - '0'.toNat)) 0 : Nat) : Int) else none
  | _ =>
      let signed : Int × List Char :=
        match t with
        | '-' :: r => (-1, r)
        | '+' :: r => (1, r)
        | r => (1, r)
      if !signed.2.isEmpty && signed.2.all isDecDigitChar
      then some (signed.1 * (decDigitsVal signed.2 : Int)) else none

/-- JS `BigInt(value)`: throws (`none`) on non-integral numbers and on
malformed strings. -/
def jsToBigInt : JSVal → Option Int
  | .big n => some n
  | .bool b => some (if b then 1 else 0)
  | .num q => if q.den = 1 then some q.num else none
  | .str s => jsStringToBigInt s.data

/-- JS `String(value)`. Number formatting is approximated: integers print
in decimal, non-integral rationals as `num/den`. Neither form can match
the `0x` + 40-hex-digit address pattern (JS number formatting cannot
either), which is the only use this code makes of the result. -/
def jsToString : JSVal → String
  | .str s => s
  | .bool b => if b then "true" else "false"
  | .big n => toString n
  | .num q => if q.den = 1 then toString q.num
              else toString q.num ++ "/" ++ toString q.den

/-- The anchored regex test `/^0x[a-fA-F0-9]{40}$/.test(s)`. -/
def testAddressRegex (cs : List Char) : Bool :=
  match cs with
  | '0' :: 'x' :: r => r.length == 40 && r.all isHexDigitChar
  | _ => false

/-- Result shape `{ valid: boolean; error?: string }` of the validation
utilities. -/
structure ValidationResult where
  valid : Bool
  error : Option String := none
deriving DecidableEq

/-- JS `Number.isInteger` applied to a conversion result
(`none` = NaN or ±∞ → false). -/
def jsIsInteger : Option ℚ → Bool
  | none => false
  | some q => q.den == 1

/-- `x < c` on a JS number where `none` is NaN (false comparisons). -/
def jsLtConst (x : Option ℚ) (c : ℚ) : Bool :=
  match x with
  | none => false
  | some q => decide (q < c)

/-- `x > c` on a JS number where `none` is NaN (false comparisons). -/
def jsGtConst (x : Option ℚ) (c : ℚ) : Bool :=
  match x with
  | none => false
  | some q => decide (c < q)

/-- `validateEncryptionValue(type, value)` from the validation utilities,
translated case by case; `type` is the TS string-literal union
`EncryptedType`, kept as a string so the `default` branch stays live. -/
def validateEncryptionValue (ty : String) (value : JSVal) : ValidationResult :=
  if ty = "bool" then
    match value with
    | .bool _ => { valid := true }
    | _ => { valid := false, error := some "Value must be a boolean" }
  else if ty = "uint8" then
    let v := jsToNumber value
    if !jsIsInteger v || jsLtConst v 0 || jsGtConst v 255 then
      { valid := false, error := some "Value must be an integer between 0 and 255" }
    else { valid := true }
  else if ty = "uint16" then
    let v := jsToNumber value
    if !jsIsInteger v || jsLtConst v 0 || jsGtConst v 65535 then
      { valid := false, error := some "Value must be an integer between 0 and 65535" }
    else { valid := true }
  else if ty = "uint32" then
    let v := jsToNumber value
    if !jsIsInteger v || jsLtConst v 0 || jsGtConst v 4294967295 then
      { valid := false, error := some "Value must be an integer between 0 and 4294967295" }
    else { valid := true }
  else if ty = "uint64" then
    match jsToBigInt value with
    | none => { valid := false, error := some "Value must be a valid BigInt" }
    | some n =>
        if n < 0 || n > 18446744073709551615 then
          { valid := false, error := some "Value must be between 0 and 2^64-1" }
        else { valid := true }
  else if ty = "address" then
    if testAddressRegex (jsToString value).data then { valid := true }
    else { valid := false, error := some "Value must be a valid Ethereum address" }
  else { valid := false, error := some ("Unsupported type: " ++ ty) }

/-- Pair returned by the underlying instance's
`getPublicKey(contractAddress)`. -/
structure PublicKeyData where
  publicKey : String
  signature : String
deriving DecidableEq

/-- Oracle model of the external `fhevmjs` instance: each entry point this
code uses is an uninterpreted function supplied by the environment. The
typed encrypt entry points receive the raw JS value the client passes
through (the client performs no coercion or validation before the call);
`getPublicKey` may throw. -/
structure InstanceModel where
  encrypt_bool : JSVal → List Byte
  encrypt_uint8 : JSVal → List Byte
  encrypt_uint16 : JSVal → List Byte
  encrypt_uint32 : JSVal → List Byte
  encrypt_uint64 : JSVal → List Byte
  encrypt_address : JSVal → List Byte
  getPublicKey : String → Except String PublicKeyData

/-- `FhevmConfig`. The provider handle is omitted: its two observable
effects — the chain id obtained from `getNetwork()` and the signer — enter
as oracle arguments of the operations that consult them. -/
structure FhevmConfig where
  contractAddress : String
  aclAddress : Option String := none
  gatewayUrl : Option String := none

/-- The mutable fields of `FhevmClient` plus its immutable config; `inst`
models the private field `this.instance` (a Lean keyword). -/
structure ClientState where
  config : FhevmConfig
  inst : Option InstanceModel
  publicKey : Option String
  signature : Option String

/-- `new FhevmClient(config)`: the three nullable fields start null. -/
def newClient (config : FhevmConfig) : ClientState :=
  { config := config, inst := none, publicKey := none, signature := none }

/-- The fixed wrapping prefix of errors thrown by `initialize()`. -/
def initFailMsg (e : String) : String := "Failed to initialize FHEVM: " ++ e

/-- `FhevmClient.initialize()`. The two awaited external effects are
passed as oracle results: `netRes` for `provider.getNetwork()` (the chain
id) and `createRes` for `createInstance({chainId, publicKeyVerifier,
gatewayUrl})`; the created instance's own `getPublicKey` lives inside the
`InstanceModel`. Mirrors the source order exactly: `this.instance` is
assigned as soon as instance creation succeeds, before public-key
derivation, and the whole body is wrapped in one try/catch that re-throws
with the fixed prefix. Returns the updated state and the result. -/
def initClient (st : ClientState) (netRes : Except String Int)
    (createRes : Except String InstanceModel) :
    ClientState × Except String (InstanceModel × String × String) :=
  match netRes with
  | .error e => (st, .error (initFailMsg e))
  | .ok _chainId =>
    match createRes with
    | .error e => (st, .error (initFailMsg e))
    | .ok inst =>
      let st1 := { st with inst := some inst }
      match inst.getPublicKey st.config.contractAddress with
      | .error e => (st1, .error (initFailMsg e))
      | .ok pk =>
        ({ st1 with publicKey := some pk.publicKey, signature := some pk.signature },
          .ok (inst, pk.publicKey, pk.signature))

/-- `isInitialized()`: `this.instance !== null`. -/
def isInitialized (st : ClientState) : Bool := st.inst.isSome

/-- The message of the precondition error thrown by the accessors and by
`getInstance()`. -/
def notInitMsg : String := "FHEVM instance not initialized. Call initialize() first."

/-- `getPublicKey()`: `if (!this.publicKey) throw ...` — throws when the
field is null, and also when it is the (falsy) empty string. -/
def getPublicKey (st : ClientState) : Except String String :=
  match st.publicKey with
  | none => .error notInitMsg
  | some s => if s == "" then .error notInitMsg else .ok s

/-- `getSignature()`: same falsiness check on `this.signature`. -/
def getSignature (st : ClientState) : Except String String :=
  match st.signature with
  | none => .error notInitMsg
  | some s => if s == "" then .error notInitMsg else .ok s

/-- `getInstance()`: throws the precondition error when `this.instance` is
null. -/
def getInstanceE (st : ClientState) : Except String InstanceModel :=
  match st.inst with
  | none => .error notInitMsg
  | some i => .ok i

/-- `encryptBool(value)`: `this.getInstance().encrypt_bool(value)`. -/
def encryptBool (st : ClientState) (value : JSVal) : Except String (List Byte) :=
  (getInstanceE st).map fun i => i.encrypt_bool value

/-- `encryptUint8(value)`: `this.getInstance().encrypt_uint8(value)`. -/
def encryptUint8 (st : ClientState) (value : JSVal) : Except String (List Byte) :=
  (getInstanceE st).map fun i => i.encrypt_uint8 value

/-- `encryptUint16(value)`: `this.getInstance().encrypt_uint16(value)`. -/
def encryptUint16 (st : ClientState) (value : JSVal) : Except String (List Byte) :=
  (getInstanceE st).map fun i => i.encrypt_uint16 value

/-- `encryptUint32(value)`: `this.getInstance().encrypt_uint32(value)`. -/
def encryptUint32 (st : ClientState) (value : JSVal) : Except String (List Byte) :=
  (getInstanceE st).map fun i => i.encrypt_uint32 value

/-- `encryptUint64(value)`: `this.getInstance().encrypt_uint64(value)`. -/
def encryptUint64 (st : ClientState) (value : JSVal) : Except String (List Byte) :=
  (getInstanceE st).map fun i => i.encrypt_uint64 value

/-- `encryptAddress(value)`: `this.getInstance().encrypt_address(value)`. -/
def encryptAddress (st : ClientState) (value : JSVal) : Except String (List Byte) :=
  (getInstanceE st).map fun i => i.encrypt_address value

/-- States of an `FhevmClient` reachable from construction by any sequence
of `initialize()` calls with arbitrary external outcomes — no other
operation of the class mutates the fields. -/
inductive Reachable : ClientState → Prop where
  | constructed (config : FhevmConfig) : Reachable (newClient config)
  | stepInit (st : ClientState) (netRes : Except String Int)
      (createRes : Except String InstanceModel) :
      Reachable st → Reachable (initClient st netRes createRes).1

/-- `DecryptRequest { ciphertext, contractAddress, userAddress }`. -/
structure DecryptRequest where
  ciphertext : List Byte
  contractAddress : String
  userAddress : String
deriving DecidableEq

/-- One entry of an EIP-712 type description, `{ name, type }`. -/
structure EIP712Field where
  name : String
  type : String
deriving DecidableEq

/-- The EIP-712 domain object built by `userDecrypt`. -/
structure EIP712Domain where
  name : String
  version : String
  chainId : Int
  verifyingContract : String
deriving DecidableEq

/-- The EIP-712 message value `{ ciphertext, user }`. -/
structure EIP712DecryptionMessage where
  ciphertext : List Byte
  user : String
deriving DecidableEq

/-- Everything `userDecrypt` passes to
`signer.signTypedData(domain, types, value)`, as one record. -/
structure EIP712Payload where
  domain : EIP712Domain
  types : List (String × List EIP712Field)
  value : EIP712DecryptionMessage
deriving DecidableEq

/-- Oracle model of the connected signer returned by
`provider.getSigner()`. -/
structure SignerModel where
  signTypedData : EIP712Payload → Except String String

/-- `DecryptionResult { value, success }`. -/
structure DecryptionResult where
  value : JSVal
  success : Bool
deriving DecidableEq

/-- The fixed wrapping prefix of errors thrown by `userDecrypt`. -/
def decryptFailMsg (e : String) : String := "Decryption failed: " ++ e

/-- `userDecrypt(request)` with the provider's awaited effects as oracles:
`signerRes` for `provider.getSigner()` and `netRes` for
`provider.getNetwork()` (the chain id, read at call time). Translated
faithfully from the source: build the EIP-712 domain/types/value, request
the signature, then return the placeholder result; every thrown error is
wrapped with the fixed prefix. The client state is unread (the method
consults only the provider and the request). -/
def userDecrypt (_st : ClientState) (request : DecryptRequest)
    (signerRes : Except String SignerModel) (netRes : Except String Int) :
    Except String DecryptionResult :=
  match signerRes with
  | .error e => .error (decryptFailMsg e)
  | .ok signer =>
    match netRes with
    | .error e => .error (decryptFailMsg e)
    | .ok chainId =>
      let domain : EIP712Domain :=
        { name := "FHEVM Decryption", version := "1", chainId := chainId,
          verifyingContract := request.contractAddress }
      let types : List (String × List EIP712Field) :=
        [("Decryption",
          [{ name := "ciphertext", type := "bytes" },
            { name := "user", type := "address" }])]
      let value : EIP712DecryptionMessage :=
        { ciphertext := request.ciphertext, user := request.userAddress }
      match signer.signTypedData { domain := domain, types := types, value := value } with
      | .error e => .error (decryptFailMsg e)
      | .ok _signature => .ok { value := .num 0, success := true }

/-- `publicDecrypt(contractAddress, ciphertext)`: the body performs no
external call at all and returns the fixed placeholder result — the model
takes no oracle because the source consults nothing. -/
def publicDecrypt (_contractAddress : String) (_ciphertext : List Byte) :
    Except String DecryptionResult :=
  .ok { value := .num 0, success := true }

/-- The EIP-712 payload exactly as the specification's words describe it:
domain `{name: "FHEVM Decryption", version: "1", chainId, verifyingContract:
request.contractAddress}`, a single message type `Decryption` with a
`ciphertext: bytes` and a `user: address` field, and value
`{ciphertext: request.ciphertext, user: request.userAddress}`. Written
from the spec, to be compared with what the code builds. -/
def claimedDecryptPayload (request : DecryptRequest) (chainId : Int) : EIP712Payload :=
  { domain := { name := "FHEVM Decryption", version := "1", chainId := chainId,
                verifyingContract := request.contractAddress },
    types := [("Decryption",
      [{ name := "ciphertext", type := "bytes" },
        { name := "user", type := "address" }])],
    value := { ciphertext := request.ciphertext, user := request.userAddress } }

/-- The local state cells of the `useFhevmEncrypt` hook. -/
structure EncryptHookState where
  isEncrypting : Bool
  encrypted : Option (List Byte)
  encryptedHex : Option String
  error : Option String
deriving DecidableEq

/-- The local state cells of the `useFhevmDecrypt` hook. -/
structure DecryptHookState where
  isDecrypting : Bool
  decrypted : Option JSVal
  error : Option String
deriving DecidableEq

/-- The `encrypt(type, value)` callback of `useFhevmEncrypt`.
`ctxInitialized` and `client?` are the `isInitialized`/`client` context
values read from the provider; `s0` is the hook state at invocation.
Returns the value handed back to the caller together with the successive
hook states produced by each state setter, in source order (the guard
branch performs exactly one set). -/
def useFhevmEncryptCall (ctxInitialized : Bool) (client? : Option ClientState)
    (ty : String) (value : JSVal) (s0 : EncryptHookState) :
    Option (List Byte) × List EncryptHookState :=
  match client?, ctxInitialized with
  | some client, true =>
    let s1 := { s0 with isEncrypting := true }
    let s2 := { s1 with error := none }
    let run : Except String (List Byte) :=
      if ty = "bool" then encryptBool client value
      else if ty = "uint8" then encryptUint8 client value
      else if ty = "uint16" then encryptUint16 client value
      else if ty = "uint32" then encryptUint32 client value
      else if ty = "uint64" then encryptUint64 client value
      else if ty = "address" then encryptAddress client value
      else .error ("Unsupported type: " ++ ty)
    match run with
    | .ok r =>
      let s3 := { s2 with encrypted := some r }
      let s4 := { s3 with encryptedHex := some (encryptedToHex r) }
      let s5 := { s4 with isEncrypting := false }
      (some r, [s1, s2, s3, s4, s5])
    | .error e =>
      let s3 := { s2 with error := some e }
      let s4 := { s3 with isEncrypting := false }
      (none, [s1, s2, s3, s4])
  | _, _ =>
    (none, [{ s0 with error := some "FHEVM client not initialized" }])

/-- The `decrypt(request)` callback of `useFhevmDecrypt`, analogous. -/
def useFhevmDecryptCall (ctxInitialized : Bool) (client? : Option ClientState)
    (request : DecryptRequest) (signerRes : Except String SignerModel)
    (netRes : Except String Int) (s0 : DecryptHookState) :
    Option JSVal × List DecryptHookState :=
  match client?, ctxInitialized with
  | some client, true =>
    let s1 := { s0 with isDecrypting := true }
    let s2 := { s1 with error := none }
    match userDecrypt client request signerRes netRes with
    | .ok r =>
      let s3 := { s2 with decrypted := some r.value }
      let s4 := { s3 with isDecrypting := false }
      (some r.value, [s1, s2, s3, s4])
    | .error e =>
      let s3 := { s2 with error := some e }
      let s4 := { s3 with isDecrypting := false }
      (none, [s1, s2, s3, s4])
  | _, _ =>
    (none, [{ s0 with error := some "FHEVM client not initialized" }])

/-- A concrete configuration for concrete executions. -/
def cfg0 : FhevmConfig :=
  { contractAddress := "0x0000000000000000000000000000000000000001" }

/-- A concrete instance whose public-key derivation throws (the external
library returning an instance whose `getPublicKey` rejects the configured
contract). -/
def pkFailInst : InstanceModel :=
  { encrypt_bool := fun _ => [1], encrypt_uint8 := fun _ => [1],
    encrypt_uint16 := fun _ => [1], encrypt_uint32 := fun _ => [1],
    encrypt_uint64 := fun _ => [1], encrypt_address := fun _ => [1],
    getPublicKey := fun _ => .error "getPublicKey failed" }

/-- The client state after calling `initialize()` on a fresh client when
instance creation succeeded and public-key derivation threw. -/
def partialFailState : ClientState :=
  (initClient (newClient cfg0) (.ok 11155111) (.ok pkFailInst)).1

/-- A concrete instance that records, as its output byte, the length of
the string handed to `encrypt_address` — observable evidence of which
value reached the external entry point. Its `getPublicKey` succeeds. -/
def recordingInst : InstanceModel :=
  { encrypt_bool := fun _ => [7], encrypt_uint8 := fun _ => [7],
    encrypt_uint16 := fun _ => [7], encrypt_uint32 := fun _ => [7],
    encrypt_uint64 := fun _ => [7],
    encrypt_address := fun v =>
      match v with
      | .str s => [⟨s.length % 256, Nat.mod_lt _ (by decide)⟩]
      | _ => [0],
    getPublicKey := fun _ => .ok { publicKey := "pk", signature := "sig" } }

/-- A ready client obtained through a successful `initialize()`. -/
def readyState : ClientState :=
  (initClient (newClient cfg0) (.ok 11155111) (.ok recordingInst)).1

theorem storeByte_parse_byteToHexChars (b : Byte) :
    storeByte (jsParseIntHex (byteToHexChars b)) = b := by
  revert b; decide

theorem parseHexPairs_byteToHexChars_append (b : Byte) (l : List Char) :
    parseHexPairs (byteToHexChars b ++ l) = b :: parseHexPairs l := by
  have h := storeByte_parse_byteToHexChars b
  simp only [byteToHexChars] at h ⊢
  simpa [parseHexPairs] using h

theorem parseHexPairs_join (bs : List Byte) :
    parseHexPairs ((bs.map byteToHexChars).flatten) = bs := by
  induction bs with
  | nil => rfl
  | cons b rest ih =>
      simp only [List.map_cons, List.flatten_cons]
      rw [parseHexPairs_byteToHexChars_append, ih]

theorem length_join_byteToHexChars (bs : List Byte) :
    ((bs.map byteToHexChars).flatten).length = 2 * bs.length := by
  induction bs with
  | nil => rfl
  | cons b rest ih =>
      simp [byteToHexChars, ih]
      omega

theorem parseHexPairs_length : ∀ l : List Char, (parseHexPairs l).length = l.length / 2
  | [] => rfl
  | [_] => by simp [parseHexPairs]
  | c1 :: c2 :: rest => by
      simp only [parseHexPairs, List.length_cons, parseHexPairs_length rest]
      omega

/-- C5: for every byte sequence `b`, converting to a 0x-prefixed lowercase
hex string and back returns the original sequence, both through the
security-utility pair `bytesToHex`/`hexToBytes` and through the
encryption-utility pair `encryptedToHex`/`hexToUint8Array`. -/
theorem claim_C5_hex_roundtrip (b : List Byte) :
    hexToBytes (bytesToHex b) = some b ∧
    hexToUint8Array (encryptedToHex b) = some b := by
  have hlen : ((b.map byteToHexChars).flatten).length = 2 * b.length :=
    length_join_byteToHexChars b
  have hmod : ((b.map byteToHexChars).flatten).length % 2 = 0 := by omega
  have hparse := parseHexPairs_join b
  constructor
  · show (if ((b.map byteToHexChars).flatten).length % 2 = 0
        then some (parseHexPairs ((b.map byteToHexChars).flatten)) else none) = some b
    rw [if_pos hmod, hparse]
  · show (if ((b.map byteToHexChars).flatten).length % 2 = 0
        then some (parseHexPairs ((b.map byteToHexChars).flatten)) else none) = some b
    rw [if_pos hmod, hparse]

/-- C6 counterexample: the claim says the hex-to-bytes conversions fail on
every input containing a non-hex character, but `hexToBytes("0xgg")` and
`hexToUint8Array("0xgg")` both return the byte sequence `[0]` (the
unparseable pair stores 0) even though `g` is not a hex digit. -/
theorem claim_C6_counterexample :
    hexToBytes "0xgg" = some [(0 : Byte)] ∧
    hexToUint8Array "0xgg" = some [(0 : Byte)] ∧
    ("0xgg".data.drop 2).any (fun c => !isHexDigitChar c) = true := by
  refine ⟨by decide, by decide, by decide⟩

/-- C6 amended: the conversions fail exactly when the character count after
prefix removal is odd (the fractional `Uint8Array` length throws a
`RangeError`); every even-length input — hex digits or not — yields a byte
sequence of half that length, non-hex pairs silently parsing to bytes. -/
theorem claim_C6_amended (s : String) :
    (hexToBytes s = none ↔ (removeFirst0x s.data).length % 2 = 1) ∧
    (hexToBytes s).map List.length =
      (if (removeFirst0x s.data).length % 2 = 0
        then some ((removeFirst0x s.data).length / 2) else none) ∧
    (hexToUint8Array s = none ↔ (strip0xIfStartsWith s.data).length % 2 = 1) ∧
    (hexToUint8Array s).map List.length =
      (if (strip0xIfStartsWith s.data).length % 2 = 0
        then some ((strip0xIfStartsWith s.data).length / 2) else none) := by
  unfold hexToBytes hexToUint8Array
  refine ⟨?_, ?_, ?_, ?_⟩ <;>
    rcases Nat.mod_two_eq_zero_or_one (removeFirst0x s.data).length with h | h <;>
    rcases Nat.mod_two_eq_zero_or_one (strip0xIfStartsWith s.data).length with h2 | h2 <;>
    simp [h, h2, parseHexPairs_length]

/-- C10: `publicDecrypt` resolves for every contract address and ciphertext
with exactly `{value: 0, success: true}`; it consults no oracle (the model
takes none because the source performs no call) and its result does not
depend on either argument. -/
theorem claim_C10_publicDecrypt (contractAddress a2 : String)
    (ciphertext c2 : List Byte) :
    publicDecrypt contractAddress ciphertext =
      .ok { value := .num 0, success := true } ∧
    publicDecrypt contractAddress ciphertext = publicDecrypt a2 c2 :=
  ⟨rfl, rfl⟩

theorem testAddressRegex_iff (cs : List Char) :
    testAddressRegex cs = true ↔
      (cs.length = 42 ∧ cs.take 2 = ['0', 'x'] ∧
        ∀ c ∈ cs.drop 2, isHexDigitChar c = true) := by
  unfold testAddressRegex
  split
  · rename_i r
    simp only [Bool.and_eq_true, beq_iff_eq, List.all_eq_true]
    constructor
    · rintro ⟨h1, h2⟩
      refine ⟨by simp [h1], by simp, by simpa using h2⟩
    · rintro ⟨h1, _, h2⟩
      have h1' : r.length + 2 = 42 := by simpa using h1
      exact ⟨by omega, by simpa using h2⟩
  · rename_i hne
    constructor
    · intro h; cases h
    · rintro ⟨h1, h2, _⟩
      have hsplit : cs = cs.take 2 ++ cs.drop 2 := (List.take_append_drop 2 cs).symm
      rw [h2] at hsplit
      exact absurd hsplit (by simpa using hne (cs.drop 2))

/-- C8: the input validator accepts exactly the in-range values at the type
boundaries — `uint8` accepts 0 and 255, rejects −1 and 256; `uint32`
accepts 4294967295, rejects 4294967296; `address` accepts exactly the
strings `0x` followed by 40 case-insensitive hex digits. -/
theorem claim_C8_validator_boundaries :
    (validateEncryptionValue "uint8" (.num 0)).valid = true ∧
    (validateEncryptionValue "uint8" (.num 255)).valid = true ∧
    (validateEncryptionValue "uint8" (.num (-1))).valid = false ∧
    (validateEncryptionValue "uint8" (.num 256)).valid = false ∧
    (validateEncryptionValue "uint32" (.num 4294967295)).valid = true ∧
    (validateEncryptionValue "uint32" (.num 4294967296)).valid = false ∧
    ∀ s : String, (validateEncryptionValue "address" (.str s)).valid = true ↔
      (s.data.length = 42 ∧ s.data.take 2 = ['0', 'x'] ∧
        ∀ c ∈ s.data.drop 2, isHexDigitChar c = true) := by
  refine ⟨by decide, by decide, by decide, by decide, by decide, by decide, ?_⟩
  intro s
  have h : (validateEncryptionValue "address" (.str s)).valid =
      testAddressRegex (jsToString (.str s)).data := by
    unfold validateEncryptionValue
    norm_num
    by_cases ht : testAddressRegex (jsToString (JSVal.str s)).data = true
    · rw [if_pos ht]; simp [ht]
    · rw [if_neg ht]
      have hf : testAddressRegex (jsToString (JSVal.str s)).data = false := by
        simpa using ht
      simp [hf]
  rw [h]
  exact testAddressRegex_iff s.data

/-- C1: on an initialized client, `userDecrypt` on a request builds the
EIP-712 payload exactly as the spec states — domain
`{name: "FHEVM Decryption", version: "1", chainId, verifyingContract:
request.contractAddress}`, the single `Decryption` type with `ciphertext:
bytes` and `user: address`, value `{ciphertext, user}` — and passes exactly
that payload (and nothing else) to the signer's `signTypedData`: the whole
call is equivalent to applying the signer at `claimedDecryptPayload`. -/
theorem claim_C1_eip712_payload (st : ClientState) (_h : isInitialized st = true)
    (request : DecryptRequest) (signer : SignerModel) (chainId : Int) :
    userDecrypt st request (.ok signer) (.ok chainId) =
      (match signer.signTypedData (claimedDecryptPayload request chainId) with
        | .ok _ => .ok { value := .num 0, success := true }
        | .error e => .error (decryptFailMsg e)) := by
  simp only [userDecrypt, claimedDecryptPayload]
  cases h2 : signer.signTypedData
      { domain := { name := "FHEVM Decryption", version := "1", chainId := chainId,
                    verifyingContract := request.contractAddress },
        types := [("Decryption",
          [{ name := "ciphertext", type := "bytes" },
            { name := "user", type := "address" }])],
        value := { ciphertext := request.ciphertext, user := request.userAddress } } with
  | ok v => simp [h2]
  | error e => simp [h2]

/-- C1 witness: concrete run on a ready client with chain id 11155111 and a
signer that accepts the payload. -/
theorem claim_C1_witness :
    userDecrypt readyState
      { ciphertext := [1, 2], contractAddress := "0xC", userAddress := "0xU" }
      (.ok { signTypedData := fun _ => .ok "0xsig" }) (.ok 11155111) =
      .ok { value := .num 0, success := true } := by
  have h := claim_C1_eip712_payload readyState (by rfl)
    { ciphertext := [1, 2], contractAddress := "0xC", userAddress := "0xU" }
    { signTypedData := fun _ => .ok "0xsig" } 11155111
  simpa using h

/-- C2 counterexample: the claim's "getPublicKey() throws iff
isInitialized() is false" fails on a reachable state — after an
`initialize()` call in which instance creation succeeded and public-key
derivation threw, `isInitialized()` is true while `getPublicKey()` and
`getSignature()` both throw, and `instance` is non-absent while
`publicKey` is absent. -/
theorem claim_C2_counterexample :
    Reachable partialFailState ∧
    isInitialized partialFailState = true ∧
    getPublicKey partialFailState = .error notInitMsg ∧
    getSignature partialFailState = .error notInitMsg ∧
    partialFailState.inst.isSome = true ∧
    partialFailState.publicKey = none := by
  refine ⟨?_, rfl, rfl, rfl, rfl, rfl⟩
  exact Reachable.stepInit (newClient cfg0) (.ok 11155111) (.ok pkFailInst)
    (Reachable.constructed cfg0)

/-- C2 amended: in every reachable client state, `publicKey` and
`signature` are set together, and whenever `isInitialized()` is false both
accessors throw the precondition error; the converse direction of the
claimed equivalence does not hold (see the counterexample: a partial
`initialize()` failure leaves `isInitialized()` true with both accessors
throwing). -/
theorem claim_C2_amended (st : ClientState) (h : Reachable st) :
    (st.publicKey.isSome = st.signature.isSome) ∧
    (isInitialized st = false →
      getPublicKey st = .error notInitMsg ∧ getSignature st = .error notInitMsg) := by
  induction h with
  | constructed config => exact ⟨rfl, fun _ => ⟨rfl, rfl⟩⟩
  | stepInit st netRes createRes _hr ih =>
      cases netRes with
      | error e => simpa [initClient] using ih
      | ok cid =>
          cases createRes with
          | error e => simpa [initClient] using ih
          | ok inst =>
              cases hpk : inst.getPublicKey st.config.contractAddress with
              | error e =>
                  refine ⟨?_, ?_⟩
                  · simpa [initClient, hpk] using ih.1
                  · intro hfalse
                    simp [initClient, hpk, isInitialized] at hfalse
              | ok pk =>
                  refine ⟨?_, ?_⟩
                  · simp [initClient, hpk]
                  · intro hfalse
                    simp [initClient, hpk, isInitialized] at hfalse

/-- C2 amended, witness: the freshly constructed client. -/
theorem claim_C2_witness :
    ((newClient cfg0).publicKey.isSome = (newClient cfg0).signature.isSome) ∧
    (isInitialized (newClient cfg0) = false →
      getPublicKey (newClient cfg0) = .error notInitMsg ∧
      getSignature (newClient cfg0) = .error notInitMsg) :=
  claim_C2_amended (newClient cfg0) (Reachable.constructed cfg0)

/-- C3 counterexample: an `initialize()` on a fresh client in which
instance creation succeeds and public-key derivation throws rejects, yet
afterwards `instance` is populated (not absent as the claim requires),
while `publicKey` and `signature` are absent. -/
theorem claim_C3_counterexample :
    (initClient (newClient cfg0) (.ok 11155111) (.ok pkFailInst)).2 =
      .error (initFailMsg "getPublicKey failed") ∧
    partialFailState.inst.isSome = true ∧
    partialFailState.publicKey = none ∧
    partialFailState.signature = none :=
  ⟨rfl, rfl, rfl, rfl⟩

/-- C3 amended: `initialize()` populates `instance`, `publicKey` and
`signature` together on success; on a failure of chain-id derivation or of
instance creation it rejects with the state unchanged (all three still
absent on a fresh client); but when instance creation succeeds and
public-key derivation throws, it rejects leaving `instance` populated and
`publicKey`/`signature` unchanged. -/
theorem claim_C3_amended (st : ClientState) (e : String) (cid : Int)
    (createRes : Except String InstanceModel) (inst : InstanceModel) :
    initClient st (.error e) createRes = (st, .error (initFailMsg e)) ∧
    initClient st (.ok cid) (.error e) = (st, .error (initFailMsg e)) ∧
    initClient st (.ok cid) (.ok inst) =
      (match inst.getPublicKey st.config.contractAddress with
        | .error e2 => ({ st with inst := some inst }, .error (initFailMsg e2))
        | .ok pk =>
            ({ st with inst := some inst,
                       publicKey := some pk.publicKey,
                       signature := some pk.signature },
              .ok (inst, pk.publicKey, pk.signature))) := by
  refine ⟨rfl, rfl, ?_⟩
  cases hpk : inst.getPublicKey st.config.contractAddress with
  | error e2 => simp [initClient, hpk]
  | ok pk => simp [initClient, hpk]

/-- C4 counterexample: on an initialized client, `encryptAddress("0x123")`
does not throw a `ValidationError` — it succeeds, and the invalid string
reaches the instance's `encrypt_address` entry point (the recording
instance returns the length, 5, of the string it received) — even though
`validateEncryptionValue` would reject the value. -/
theorem claim_C4_counterexample :
    isInitialized readyState = true ∧
    encryptAddress readyState (.str "0x123") = .ok [5] ∧
    (validateEncryptionValue "address" (.str "0x123")).valid = false ∧
    (validateEncryptionValue "address" (.str "0x123")).error =
      some "Value must be a valid Ethereum address" := by
  refine ⟨rfl, rfl, by decide, by decide⟩

/-- C4 amended: the typed encrypt operations perform no validation at all —
each delegates its raw argument directly to the matching typed entry point
of the underlying instance, so invalid values (which
`validateEncryptionValue`, a separate utility, would reject) do reach the
instance. -/
theorem claim_C4_amended (inst : InstanceModel) (cfg : FhevmConfig)
    (pk sig : Option String) (v : JSVal) :
    let st : ClientState := { config := cfg, inst := some inst, publicKey := pk, signature := sig }
    encryptBool st v = .ok (inst.encrypt_bool v) ∧
    encryptUint8 st v = .ok (inst.encrypt_uint8 v) ∧
    encryptUint16 st v = .ok (inst.encrypt_uint16 v) ∧
    encryptUint32 st v = .ok (inst.encrypt_uint32 v) ∧
    encryptUint64 st v = .ok (inst.encrypt_uint64 v) ∧
    encryptAddress st v = .ok (inst.encrypt_address v) :=
  ⟨rfl, rfl, rfl, rfl, rfl, rfl⟩

/-- C7 counterexample: the claim quantifies over clients "on which
initialize() has never successfully completed", which includes the partial
failure state: there the single `initialize()` call rejected, yet
`encryptBool(true)` does not throw — it succeeds by delegating to the
already-assigned instance. -/
theorem claim_C7_counterexample :
    (initClient (newClient cfg0) (.ok 11155111) (.ok pkFailInst)).2 =
      .error (initFailMsg "getPublicKey failed") ∧
    encryptBool partialFailState (.bool true) = .ok [1] :=
  ⟨rfl, rfl⟩

/-- C7 amended: on a client whose `instance` field is still absent — fresh,
or with every `initialize()` attempt having failed at or before instance
creation — every typed encrypt call throws the synchronous precondition
error "FHEVM instance not initialized. Call initialize() first." before
any external call (no instance function is ever applied). -/
theorem claim_C7_amended (st : ClientState) (h : st.inst = none) (v : JSVal) :
    encryptBool st v = .error notInitMsg ∧
    encryptUint8 st v = .error notInitMsg ∧
    encryptUint16 st v = .error notInitMsg ∧
    encryptUint32 st v = .error notInitMsg ∧
    encryptUint64 st v = .error notInitMsg ∧
    encryptAddress st v = .error notInitMsg := by
  refine ⟨?_, ?_, ?_, ?_, ?_, ?_⟩ <;>
    simp [encryptBool, encryptUint8, encryptUint16, encryptUint32,
      encryptUint64, encryptAddress, getInstanceE, h, Except.map]

/-- C7 amended, witness: a freshly constructed client and
`encryptBool(true)`. -/
theorem claim_C7_witness :
    encryptBool (newClient cfg0) (.bool true) = .error notInitMsg ∧
    encryptUint8 (newClient cfg0) (.bool true) = .error notInitMsg ∧
    encryptUint16 (newClient cfg0) (.bool true) = .error notInitMsg ∧
    encryptUint32 (newClient cfg0) (.bool true) = .error notInitMsg ∧
    encryptUint64 (newClient cfg0) (.bool true) = .error notInitMsg ∧
    encryptAddress (newClient cfg0) (.bool true) = .error notInitMsg :=
  claim_C7_amended (newClient cfg0) rfl (.bool true)

/-- C9: when the encrypt-with-state hook wrapper is invoked while the
owning session is not initialized (`ctxInitialized = false`, any client
value), it returns null, performs exactly one synchronous state update —
setting `error` to the precondition error — and throughout the invocation
the pending flag stays false and the stored result stays absent; the
decrypt-with-state wrapper behaves identically. -/
theorem claim_C9_hook_uninitialized (client? : Option ClientState)
    (ty : String) (value : JSVal) (s0 : EncryptHookState)
    (request : DecryptRequest) (signerRes : Except String SignerModel)
    (netRes : Except String Int) (t0 : DecryptHookState)
    (hs1 : s0.isEncrypting = false) (hs2 : s0.encrypted = none)
    (ht1 : t0.isDecrypting = false) (ht2 : t0.decrypted = none) :
    (useFhevmEncryptCall false client? ty value s0).1 = none ∧
    (useFhevmEncryptCall false client? ty value s0).2 =
      [{ s0 with error := some "FHEVM client not initialized" }] ∧
    ((useFhevmEncryptCall false client? ty value s0).2.all
      fun s => !s.isEncrypting && s.encrypted.isNone && s.error.isSome) = true ∧
    (useFhevmDecryptCall false client? request signerRes netRes t0).1 = none ∧
    (useFhevmDecryptCall false client? request signerRes netRes t0).2 =
      [{ t0 with error := some "FHEVM client not initialized" }] ∧
    ((useFhevmDecryptCall false client? request signerRes netRes t0).2.all
      fun s => !s.isDecrypting && s.decrypted.isNone && s.error.isSome) = true := by
  cases client? <;>
    simp [useFhevmEncryptCall, useFhevmDecryptCall, hs1, hs2, ht1, ht2]

/-- C9 witness: the initial hook states, a `bool`/`true` encryption and a
concrete decrypt request. -/
theorem claim_C9_witness :
    (useFhevmEncryptCall false none "bool" (.bool true)
      { isEncrypting := false, encrypted := none, encryptedHex := none,
        error := none }).1 = none ∧
    (useFhevmEncryptCall false none "bool" (.bool true)
      { isEncrypting := false, encrypted := none, encryptedHex := none,
        error := none }).2 =
      [{ isEncrypting := false, encrypted := none, encryptedHex := none,
         error := some "FHEVM client not initialized" }] ∧
    ((useFhevmEncryptCall false none "bool" (.bool true)
      { isEncrypting := false, encrypted := none, encryptedHex := none,
        error := none }).2.all
      fun s => !s.isEncrypting && s.encrypted.isNone && s.error.isSome) = true ∧
    (useFhevmDecryptCall false none
      { ciphertext := [], contractAddress := "0xC", userAddress := "0xU" }
      (.error "no signer") (.error "no network")
      { isDecrypting := false, decrypted := none, error := none }).1 = none ∧
    (useFhevmDecryptCall false none
      { ciphertext := [], contractAddress := "0xC", userAddress := "0xU" }
      (.error "no signer") (.error "no network")
      { isDecrypting := false, decrypted := none, error := none }).2 =
      [{ isDecrypting := false, decrypted := none,
         error := some "FHEVM client not initialized" }] ∧
    ((useFhevmDecryptCall false none
      { ciphertext := [], contractAddress := "0xC", userAddress := "0xU" }
      (.error "no signer") (.error "no network")
      { isDecrypting := false, decrypted := none, error := none }).2.all
      fun s => !s.isDecrypting && s.decrypted.isNone && s.error.isSome) = true :=
  claim_C9_hook_uninitialized none "bool" (.bool true)
    { isEncrypting := false, encrypted := none, encryptedHex := none, error := none }
    { ciphertext := [], contractAddress := "0xC", userAddress := "0xU" }
    (.error "no signer") (.error "no network")
    { isDecrypting := false, decrypted := none, error := none }
    rfl rfl rfl rfl
